import Mathlib

/-!
Verification of the inference adapter layer of `cloodei/heart`
(`src/main/models.py`), shallowly embedded in Lean 4.

Modelling conventions:
* Python floats are modelled exactly as rationals (`ℚ`), with an explicit
  `nan` constructor (`PyFloat`) because pandas fills absent cells of a
  record frame with `NaN` and `astype(float)` accepts `NaN`.
* A raw feature value (`Value`) is either something Python's `float()`
  accepts (numbers, including numeric strings — constructor `num`), a
  `NaN`, or something `float()` rejects such as `"abc"`
  (constructor `nonNumeric`).
* Python dicts keyed by strings are association lists with first-match
  lookup; Python errors are the `Except String` monad, carrying the
  exact message the source raises.
* The relevant behaviour of `pd.DataFrame` on the three raw-input shapes
  is embedded faithfully:
  - list of mappings: columns are the union of the keys of all mappings
    (order of first appearance); absent cells read as `NaN`;
  - a single nonempty mapping of scalar values: `ValueError: If using
    all scalar values, you must pass an index`;
  - list of lists: columns are the integer `RangeIndex 0..k-1`
    (never the schema's string names).
-/

set_option autoImplicit false

namespace Heart

/-- A Python float: an exact rational or `NaN`. -/
inductive PyFloat where
  | val (q : ℚ)
  | nan
  deriving DecidableEq, Repr

/-- A raw feature value as supplied by a caller.  `num q` stands for any
value `float()` coerces to the number `q` (ints, floats, numeric strings);
`nan` is a float `NaN`; `nonNumeric s` is a value `float()` rejects with a
`ValueError`, e.g. the string `"abc"`. -/
inductive Value where
  | num (q : ℚ)
  | nan
  | nonNumeric (s : String)
  deriving DecidableEq, Repr

/-- `float(v)`: the coercion `astype(float)` applies cellwise; `none`
means a `ValueError` is raised for this cell. -/
def Value.toFloat : Value → Option PyFloat
  | .num q => some (.val q)
  | .nan => some .nan
  | .nonNumeric _ => none

/-- A record: one mapping from feature names to values (a Python dict,
so keys are distinct; lookup is first-match). -/
abbrev Rec := List (String × Value)

/-- The three raw-input shapes of the spec's Raw Input data model. -/
inductive Raw where
  | records (rs : List Rec)
  | single (m : Rec)
  | matrix (rows : List (List Value))
  deriving DecidableEq, Repr

/-- `FEATURE_COLUMNS` from `models.py` (the Feature Schema, in canonical
order). -/
def FEATURE_COLUMNS : List String :=
  ["age", "sex", "cp", "thalach", "exang", "oldpeak", "slope", "ca", "thal"]

/-- A pandas column label: a string name (frames built from mappings) or
an integer position (the `RangeIndex` of frames built from raw lists). -/
inductive Col where
  | name (s : String)
  | idx (n : Nat)
  deriving DecidableEq, Repr

/-- First-match association lookup (Python dict access semantics). -/
def lookupCol (c : Col) : List (Col × Value) → Option Value
  | [] => none
  | kv :: rest => if kv.1 = c then some kv.2 else lookupCol c rest

/-- A pandas DataFrame, reduced to what `_scale` observes: its column
labels and its rows as keyed cells. -/
structure Frame where
  cols : List Col
  rows : List (List (Col × Value))
  deriving DecidableEq, Repr

/-- Key union in order of first appearance: the columns
`pd.DataFrame(list_of_dicts)` produces. -/
def unionKeys (rs : List Rec) : List String :=
  rs.foldl (fun acc r => r.foldl
    (fun acc2 kv => if kv.1 ∈ acc2 then acc2 else acc2 ++ [kv.1]) acc) []

/-- Longest row length: pandas pads ragged list-of-list input to the
longest row, so the `RangeIndex` has that many columns. -/
def maxRowLen (rows : List (List Value)) : Nat :=
  rows.foldl (fun a r => max a r.length) 0

/-- The pandas `ValueError` message for `pd.DataFrame(dict_of_scalars)`. -/
def scalarIndexErr : String := "If using all scalar values, you must pass an index"

/-- The frame `pd.DataFrame(list_of_dicts)` builds: string columns from
the key union, one keyed row per mapping. -/
def recFrame (rs : List Rec) : Frame :=
  { cols := (unionKeys rs).map Col.name,
    rows := rs.map (fun r => r.map (fun kv => (Col.name kv.1, kv.2))) }

/-- The frame `pd.DataFrame(list_of_lists)` builds: integer `RangeIndex`
columns, positionally keyed rows. -/
def matFrame (rows : List (List Value)) : Frame :=
  { cols := (List.range (maxRowLen rows)).map Col.idx,
    rows := rows.map (fun r => (r.enum.map (fun jv => (Col.idx jv.1, jv.2)))) }

/-- `pd.DataFrame(records)` as called on line 70 of `models.py`, on each
of the three raw shapes. -/
def dataFrame : Raw → Except String Frame
  | .records rs => .ok (recFrame rs)
  | .single _ => .error scalarIndexErr
  | .matrix rows => .ok (matFrame rows)

/-- Error message of `_scale` for empty input (`models.py` line 68). -/
def emptyErr : String := "No input records provided."

/-- Error message of `_scale` for missing features (line 73). -/
def missingErr (missing : List String) : String :=
  "Missing features: " ++ String.intercalate ", " missing

/-- Error message of `_scale` for non-coercible values (line 78). -/
def numErr : String := "All feature values must be numeric."

/-- Explicit effectful list map over `Except` (the loop pandas performs
cellwise during `astype(float)`; the first failing cell raises). -/
def exceptMapList {α β : Type} (f : α → Except String β) : List α → Except String (List β)
  | [] => .ok []
  | a :: l => do
      let b ← f a
      let bs ← exceptMapList f l
      pure (b :: bs)

/-- One cell of `frame[FEATURE_COLUMNS].astype(float)`: a key present in
the frame's columns but absent from this row reads as `NaN`; a
non-coercible value raises the `ValueError` that `_scale` rewraps as
`numErr`. -/
def cellFloat (row : List (Col × Value)) (c : String) : Except String PyFloat :=
  match lookupCol (Col.name c) row with
  | none => .ok .nan
  | some v =>
      match v.toFloat with
      | some f => .ok f
      | none => .error numErr

/-- `frame[FEATURE_COLUMNS].astype(float)`: select the schema columns in
schema order and coerce every cell to float. -/
def selectAstype (fr : Frame) : Except String (List (List PyFloat)) :=
  exceptMapList (fun row => exceptMapList (cellFloat row) FEATURE_COLUMNS) fr.rows

/-- `x - m` with `NaN` propagation. -/
def PyFloat.subq : PyFloat → ℚ → PyFloat
  | .val a, m => .val (a - m)
  | .nan, _ => .nan

/-- `x / s` with `NaN` propagation.  The fitted `StandardScaler` never
has a zero `scale_` entry (sklearn replaces zeros with 1), so rational
division by zero is not exercised. -/
def PyFloat.divq : PyFloat → ℚ → PyFloat
  | .val a, s => .val (a / s)
  | .nan, _ => .nan

/-- The fitted `StandardScaler` (`models.py` line 55): per-column means
`mean_` and scales `scale_`, one entry per Feature Schema column. -/
structure Scaler where
  mean : List ℚ
  scal : List ℚ
  deriving DecidableEq, Repr

/-- `scaler.transform`: per-column standardization `(x - mean) / scale`.
The fitted scaler has exactly one mean and one scale per schema column,
matching the nine columns every selected matrix has. -/
def Scaler.transform (sc : Scaler) (X : List (List PyFloat)) : List (List PyFloat) :=
  X.map (fun row => (row.zip (sc.mean.zip sc.scal)).map
    (fun xms => (xms.1.subq xms.2.1).divq xms.2.2))

/-- Python truthiness of the `records` argument: `not records` is true
exactly when the list or mapping is empty. -/
def Raw.isEmptyInput : Raw → Bool
  | .records rs => rs.isEmpty
  | .single m => m.isEmpty
  | .matrix rows => rows.isEmpty

/-- `Model._scale` (`models.py` lines 66-80): empty check, DataFrame
construction, missing-features check against the frame's columns,
schema-column selection with float coercion, then the shared scaler. -/
def scale (sc : Scaler) (records : Raw) : Except String (List (List PyFloat)) := do
  if records.isEmptyInput then
    throw emptyErr
  let frame ← dataFrame records
  let missing := FEATURE_COLUMNS.filter (fun c => ¬ (Col.name c ∈ frame.cols))
  if missing.isEmpty then
    let numeric ← selectAstype frame
    pure (sc.transform numeric)
  else
    throw (missingErr missing)

/-- `str()` of a plain (already `.item()`-unwrapped) class label. -/
def intStr (i : Int) : String := toString i

/-- A bound classifier, as `Model` observes it: `predict`, the optional
`predict_proba` (present iff `hasattr(model, 'predict_proba')`), and the
`classes_` ordering.  Label and class values are already plain scalars
(the `.item()` unwrapping in `predict_with_details` is the identity
here). -/
structure Classifier where
  predict : List (List PyFloat) → List Int
  predictProba : Option (List (List PyFloat) → List (List ℚ))
  classes : List Int

/-- The inference adapter `Model` (`models.py` lines 60-64): a display
name, a bound classifier and a metrics mapping, all fixed at
construction. -/
structure Model where
  name : String
  clf : Classifier
  metrics : List (String × ℚ)

/-- `Model.predict` (lines 82-84). -/
def Model.predictOp (m : Model) (sc : Scaler) (records : Raw) : Except String (List Int) := do
  let X ← scale sc records
  pure (m.clf.predict X)

/-- `Model.predict_proba` (lines 86-90): the capability check comes
first and returns `None` without touching the input. -/
def Model.predictProbaOp (m : Model) (sc : Scaler) (records : Raw) :
    Except String (Option (List (List ℚ))) :=
  match m.clf.predictProba with
  | none => pure none
  | some f => do
      let X ← scale sc records
      pure (some (f X))

/-- Python's `max` over a nonempty collection (a left fold of binary
`max` over the values; `max` on an empty collection raises, which the
source never does because a probability row is nonempty). -/
def pyMax : List ℚ → ℚ
  | [] => 0
  | x :: xs => xs.foldl max x

/-- Python dict insertion: replace the value in place if the key exists,
else append. -/
def dictInsert (m : List (String × ℚ)) (k : String) (v : ℚ) : List (String × ℚ) :=
  if m.any (fun p => p.1 = k) then
    m.map (fun p => if p.1 = k then (k, v) else p)
  else m ++ [(k, v)]

/-- A Python dict comprehension over a list of key-value pairs. -/
def dictOfPairs (l : List (String × ℚ)) : List (String × ℚ) :=
  l.foldl (fun m kv => dictInsert m kv.1 kv.2) []

/-- The `prob_map` comprehension of `predict_with_details` (line 107):
`{str(classes[j]): float(probs[j]) for j, _ in enumerate(probs)}`.
`classes[class_index]` demands `class_index < len(classes)`; on the
outputs `predict_proba` actually produces, a probability row has exactly
one entry per class, so the pairing is the positional zip. -/
def probMapOf (classes : List Int) (probs : List ℚ) : List (String × ℚ) :=
  dictOfPairs (List.zipWith (fun c p => (intStr c, p)) classes probs)

/-- One Prediction Detail record: the `label` key is always present;
`confidence` and `probabilities` are present iff the classifier is
probability-capable. -/
structure Detail where
  label : Int
  confidence : Option ℚ
  probabilities : Option (List (String × ℚ))
  deriving DecidableEq, Repr

/-- The loop body of `predict_with_details` (lines 99-114) at one
enumerated prediction `ip = (index, raw_pred)`: the `label` key is always
set; the probability branch reads `probabilities[index]` and attaches
`confidence` and `probabilities`. -/
def detailRow (probabilities : Option (List (List ℚ))) (classes : List Int)
    (ip : Nat × Int) : Detail :=
  match probabilities with
  | none => { label := ip.2, confidence := none, probabilities := none }
  | some probs =>
      let probMap := probMapOf classes (probs.getD ip.1 [])
      { label := ip.2,
        confidence := some (pyMax (probMap.map Prod.snd)),
        probabilities := some probMap }

/-- `Model.predict_with_details` (lines 92-116).  `probabilities[index]`
demands `index < len(probabilities)`; `predict_proba` returns one row
per input row, matching `len(predictions)`. -/
def Model.predictWithDetailsOp (m : Model) (sc : Scaler) (records : Raw) :
    Except String (List Detail) := do
  let X ← scale sc records
  let predictions := m.clf.predict X
  let probabilities := m.clf.predictProba.map (fun f => f X)
  let classes := match probabilities with
    | some _ => m.clf.classes
    | none => []
  pure (predictions.enum.map (detailRow probabilities classes))

/-- The process state the three operations can read: the adapter and the
shared fitted scaler.  The Python methods contain no assignment to
`self`, to the scaler or to the classifier, so the embedding of each
operation threads this state and returns it unchanged. -/
structure AppState where
  model : Model
  scaler : Scaler

/-- `Model.predict` with the process state threaded explicitly. -/
def predictS (st : AppState) (records : Raw) : Except String (List Int) × AppState :=
  (st.model.predictOp st.scaler records, st)

/-- `Model.predict_proba` with the process state threaded explicitly. -/
def predictProbaS (st : AppState) (records : Raw) :
    Except String (Option (List (List ℚ))) × AppState :=
  (st.model.predictProbaOp st.scaler records, st)

/-- `Model.predict_with_details` with the process state threaded
explicitly. -/
def predictWithDetailsS (st : AppState) (records : Raw) :
    Except String (List Detail) × AppState :=
  (st.model.predictWithDetailsOp st.scaler records, st)

/-- The schema names absent from the union of the keys of all supplied
mappings: exactly the names `_scale`'s missing-features check reports for
a list of records, in Feature-Schema order. -/
def schemaMissing (rs : List Rec) : List String :=
  FEATURE_COLUMNS.filter (fun c => ¬ c ∈ unionKeys rs)

/-- First-match lookup of a feature name in one record. -/
def lookupRec (c : String) : Rec → Option Value
  | [] => none
  | kv :: rest => if kv.1 = c then some kv.2 else lookupRec c rest

/-! ### Concrete fixtures for witnesses and counterexamples -/

/-- A stand-in fitted scaler with mean 0 and scale 1 in every column
(any concrete `Scaler` works; this one keeps witness arithmetic
readable). -/
def idScaler : Scaler := { mean := List.replicate 9 0, scal := List.replicate 9 1 }

/-- A record supplying all nine schema features. -/
def fullRec : Rec :=
  [("age", .num 63), ("sex", .num 1), ("cp", .num 3), ("thalach", .num 150),
   ("exang", .num 0), ("oldpeak", .num 2), ("slope", .num 0), ("ca", .num 0),
   ("thal", .num 1)]

/-- A record supplying only `age` and `sex` (the spec's example input). -/
def sparseRec : Rec := [("age", .num 50), ("sex", .num 1)]

/-- A record whose `age` value is the non-numeric string `"abc"`. -/
def badRec : Rec :=
  [("age", .nonNumeric "abc"), ("sex", .num 1), ("cp", .num 3), ("thalach", .num 150),
   ("exang", .num 0), ("oldpeak", .num 2), ("slope", .num 0), ("ca", .num 0),
   ("thal", .num 1)]

/-- A probability-capable test classifier (constant output suffices to
exercise the adapter's record formatting). -/
def probaClf : Classifier :=
  { predict := fun X => X.map (fun _ => 1),
    predictProba := some (fun X => X.map (fun _ => [1/4, 3/4])),
    classes := [0, 1] }

/-- A label-only test classifier (`hasattr(model, 'predict_proba')` is
false). -/
def labelClf : Classifier :=
  { predict := fun X => X.map (fun _ => 0),
    predictProba := none,
    classes := [0, 1] }

/-- An adapter bound to the probability-capable test classifier. -/
def probaModel : Model := { name := "KNN", clf := probaClf, metrics := [] }

/-- An adapter bound to the label-only test classifier. -/
def labelModel : Model := { name := "SVC", clf := labelClf, metrics := [] }

/-- A default Prediction Detail used only as the `getD` fallback when
indexing output lists in theorem statements. -/
def dfltDetail : Detail := { label := 0, confidence := none, probabilities := none }

/-! ### Helper lemmas -/

theorem exceptMapList_ok_length {α β : Type} (f : α → Except String β) :
    ∀ (l : List α) (r : List β), exceptMapList f l = .ok r → r.length = l.length := by
  intro l
  induction l with
  | nil =>
      intro r h
      simp only [exceptMapList] at h
      cases h
      rfl
  | cons a t ih =>
      intro r h
      simp only [exceptMapList, Bind.bind, Except.bind] at h
      cases hfa : f a with
      | error e => rw [hfa] at h; cases h
      | ok b =>
          rw [hfa] at h
          cases hrest : exceptMapList f t with
          | error e => rw [hrest] at h; cases h
          | ok bs =>
              rw [hrest] at h
              simp only [pure, Except.pure] at h
              cases h
              simp [ih bs hrest]

theorem exceptMapList_err {α β : Type} (f : α → Except String β) (e : String)
    (hu : ∀ a e', f a = .error e' → e' = e) :
    ∀ l : List α, (∃ a ∈ l, f a = .error e) → exceptMapList f l = .error e := by
  intro l
  induction l with
  | nil => rintro ⟨a, ha, _⟩; cases ha
  | cons a t ih =>
      rintro ⟨b, hb, hbe⟩
      simp only [exceptMapList, Bind.bind, Except.bind]
      cases hfa : f a with
      | error e' => rw [hu a e' hfa]
      | ok v =>
          have hbt : b ∈ t := by
            rcases List.mem_cons.mp hb with h | h
            · subst h; rw [hfa] at hbe; cases hbe
            · exact h
          rw [ih ⟨b, hbt, hbe⟩]

theorem exceptMapList_err_unique {α β : Type} (f : α → Except String β) (e : String)
    (hu : ∀ a e', f a = .error e' → e' = e) :
    ∀ (l : List α) (e' : String), exceptMapList f l = .error e' → e' = e := by
  intro l
  induction l with
  | nil => intro e' h; simp only [exceptMapList] at h; cases h
  | cons a t ih =>
      intro e' h
      simp only [exceptMapList, Bind.bind, Except.bind] at h
      cases hfa : f a with
      | error e2 => rw [hfa] at h; cases h; exact hu a e' hfa
      | ok b =>
          rw [hfa] at h
          cases hrest : exceptMapList f t with
          | error e2 => rw [hrest] at h; cases h; exact ih e' hrest
          | ok bs => rw [hrest] at h; simp only [pure, Except.pure] at h; cases h

theorem lookupCol_wrap (c : String) : ∀ r : Rec,
    lookupCol (Col.name c) (r.map (fun kv => (Col.name kv.1, kv.2))) = lookupRec c r := by
  intro r
  induction r with
  | nil => rfl
  | cons kv rest ih =>
      simp only [List.map_cons, lookupCol, lookupRec, Col.name.injEq]
      by_cases h : kv.1 = c
      · simp [h]
      · simp [h, ih]

theorem records_missing_eq (rs : List Rec) :
    FEATURE_COLUMNS.filter (fun c => ¬ Col.name c ∈ (unionKeys rs).map Col.name) =
      schemaMissing rs := by
  unfold schemaMissing
  apply List.filter_congr
  intro c _
  simp [List.mem_map]

theorem dictInsert_of_new (m : List (String × ℚ)) (k : String) (v : ℚ)
    (h : ¬ k ∈ m.map Prod.fst) : dictInsert m k v = m ++ [(k, v)] := by
  unfold dictInsert
  rw [if_neg]
  intro hany
  rcases List.any_eq_true.mp hany with ⟨p, hp, hpk⟩
  exact h (List.mem_map.mpr ⟨p, hp, (of_decide_eq_true hpk).symm ▸ rfl⟩)

theorem dictFold_disjoint (l : List (String × ℚ)) :
    ∀ acc : List (String × ℚ), (∀ k ∈ l.map Prod.fst, ¬ k ∈ acc.map Prod.fst) →
      (l.map Prod.fst).Nodup →
      l.foldl (fun m kv => dictInsert m kv.1 kv.2) acc = acc ++ l := by
  induction l with
  | nil => intro acc _ _; simp
  | cons kv t ih =>
      intro acc hdisj hnd
      simp only [List.foldl_cons]
      rw [dictInsert_of_new acc kv.1 kv.2 (hdisj kv.1 (by simp))]
      rw [ih (acc ++ [(kv.1, kv.2)])]
      · simp
      · intro k hk
        simp only [List.map_append, List.mem_append, List.map_cons, List.mem_singleton]
        rintro (h | h)
        · exact hdisj k (by simp [hk]) h
        · simp only [List.map_cons, List.nodup_cons] at hnd
          simp only [List.map, List.mem_singleton] at h
          exact hnd.1 (h ▸ hk)
      · simp only [List.map_cons, List.nodup_cons] at hnd
        exact hnd.2

theorem dictOfPairs_of_nodup (l : List (String × ℚ)) (h : (l.map Prod.fst).Nodup) :
    dictOfPairs l = l := by
  unfold dictOfPairs
  rw [dictFold_disjoint l [] (by simp) h]
  simp

theorem zipWith_pair_fst {α β γ : Type} (f : α → γ) :
    ∀ (cs : List α) (p : List β), cs.length = p.length →
      (List.zipWith (fun c q => (f c, q)) cs p).map Prod.fst = cs.map f := by
  intro cs
  induction cs with
  | nil => intro p _; simp
  | cons c t ih =>
      intro p hp
      cases p with
      | nil => cases hp
      | cons q tq =>
          have hlen : t.length = tq.length := by
            simpa using hp
          simp only [List.zipWith_cons_cons, List.map_cons]
          rw [ih tq hlen]

theorem zipWith_pair_snd {α β γ : Type} (f : α → γ) :
    ∀ (cs : List α) (p : List β), cs.length = p.length →
      (List.zipWith (fun c q => (f c, q)) cs p).map Prod.snd = p := by
  intro cs
  induction cs with
  | nil => intro p hp; cases p; simp; cases hp
  | cons c t ih =>
      intro p hp
      cases p with
      | nil => cases hp
      | cons q tq =>
          have hlen : t.length = tq.length := by
            simpa using hp
          simp only [List.zipWith_cons_cons, List.map_cons]
          rw [ih tq hlen]

theorem probMapOf_eq_zip (cs : List Int) (p : List ℚ) (h : cs.length = p.length)
    (hnd : (cs.map intStr).Nodup) :
    probMapOf cs p = List.zipWith (fun c q => (intStr c, q)) cs p := by
  unfold probMapOf
  exact dictOfPairs_of_nodup _ (by rw [zipWith_pair_fst intStr cs p h]; exact hnd)

theorem le_foldl_max : ∀ (xs : List ℚ) (a : ℚ), a ≤ xs.foldl max a := by
  intro xs
  induction xs with
  | nil => intro a; exact le_refl a
  | cons x t ih =>
      intro a
      exact le_trans (le_max_left a x) (ih (max a x))

theorem foldl_max_eq_or_mem : ∀ (xs : List ℚ) (a : ℚ),
    xs.foldl max a = a ∨ xs.foldl max a ∈ xs := by
  intro xs
  induction xs with
  | nil => intro a; exact Or.inl rfl
  | cons x t ih =>
      intro a
      rcases ih (max a x) with h | h
      · rw [List.foldl_cons, h]
        rcases max_choice a x with h2 | h2
        · exact Or.inl h2
        · exact Or.inr (by rw [h2]; exact List.mem_cons_self x t)
      · exact Or.inr (List.mem_cons_of_mem x h)

theorem mem_le_foldl_max : ∀ (xs : List ℚ) (a x : ℚ), x ∈ xs → x ≤ xs.foldl max a := by
  intro xs
  induction xs with
  | nil => intro a x hx; cases hx
  | cons y t ih =>
      intro a x hx
      rcases List.mem_cons.mp hx with h | h
      · subst h
        exact le_trans (le_max_right a x) (le_foldl_max t (max a x))
      · exact ih (max a y) x h

theorem pyMax_mem (l : List ℚ) (h : l ≠ []) : pyMax l ∈ l := by
  cases l with
  | nil => exact absurd rfl h
  | cons x t =>
      simp only [pyMax]
      rcases foldl_max_eq_or_mem t x with h2 | h2
      · rw [h2]; exact List.mem_cons_self x t
      · exact List.mem_cons_of_mem x h2

theorem pyMax_ub (l : List ℚ) : ∀ x ∈ l, x ≤ pyMax l := by
  intro x hx
  cases l with
  | nil => cases hx
  | cons y t =>
      simp only [pyMax]
      rcases List.mem_cons.mp hx with h | h
      · subst h; exact le_foldl_max t x
      · exact mem_le_foldl_max t y x h

theorem detailRow_label (pr : Option (List (List ℚ))) (cl : List Int) (ip : Nat × Int) :
    (detailRow pr cl ip).label = ip.2 := by
  cases pr <;> rfl

theorem scale_records_missing (sc : Scaler) (rs : List Rec) (hne : rs ≠ [])
    (hmiss : schemaMissing rs ≠ []) :
    scale sc (Raw.records rs) = .error (missingErr (schemaMissing rs)) := by
  have hemp : (Raw.records rs).isEmptyInput = false := by
    cases rs with
    | nil => exact absurd rfl hne
    | cons a t => rfl
  simp only [scale, hemp, dataFrame, recFrame, Bind.bind, Except.bind, Bool.false_eq_true,
    if_false, pure, Except.pure, records_missing_eq]
  rw [if_neg]
  · simp [throw, throwThe, MonadExceptOf.throw]
  · simp only [List.isEmpty_iff]
    exact hmiss

theorem scale_records_shape (sc : Scaler) (rs : List Rec) (hne : rs ≠ [])
    (hmiss : schemaMissing rs = []) :
    scale sc (Raw.records rs) = Except.map sc.transform (selectAstype (recFrame rs)) := by
  have hemp : (Raw.records rs).isEmptyInput = false := by
    cases rs with
    | nil => exact absurd rfl hne
    | cons a t => rfl
  have hcols : (recFrame rs).cols = (unionKeys rs).map Col.name := rfl
  simp only [scale, hemp, dataFrame, Bind.bind, Except.bind, Bool.false_eq_true,
    if_false, pure, Except.pure, hcols, records_missing_eq]
  rw [if_pos (by simp [List.isEmpty_iff, hmiss])]
  cases h : selectAstype (recFrame rs) with
  | error e => simp [h, Except.map]
  | ok numeric => simp [h, Except.map]

theorem scale_single_scalar (sc : Scaler) (m : Rec) (hne : m ≠ []) :
    scale sc (Raw.single m) = .error scalarIndexErr := by
  have hemp : (Raw.single m).isEmptyInput = false := by
    cases m with
    | nil => exact absurd rfl hne
    | cons a t => rfl
  simp [scale, hemp, dataFrame, Bind.bind, Except.bind, pure, Except.pure]

theorem scale_matrix_missing (sc : Scaler) (rows : List (List Value)) (hne : rows ≠ []) :
    scale sc (Raw.matrix rows) = .error (missingErr FEATURE_COLUMNS) := by
  have hemp : (Raw.matrix rows).isEmptyInput = false := by
    cases rows with
    | nil => exact absurd rfl hne
    | cons a t => rfl
  have hfilter : FEATURE_COLUMNS.filter
      (fun c => ¬ Col.name c ∈ (matFrame rows).cols) = FEATURE_COLUMNS := by
    apply List.filter_eq_self.mpr
    intro c _
    simp [matFrame, List.mem_map]
  simp only [scale, hemp, dataFrame, Bind.bind, Except.bind, Bool.false_eq_true, if_false,
    pure, Except.pure, hfilter]
  rw [if_neg]
  · simp [throw, throwThe, MonadExceptOf.throw]
  · simp [List.isEmpty_iff, FEATURE_COLUMNS]

theorem scale_empty (sc : Scaler) (raw : Raw) (h : raw.isEmptyInput = true) :
    scale sc raw = .error emptyErr := by
  simp [scale, h, throw, throwThe, MonadExceptOf.throw, Bind.bind, Except.bind]

theorem scale_ok_length (sc : Scaler) (rs : List Rec) (X : List (List PyFloat))
    (h : scale sc (Raw.records rs) = .ok X) : X.length = rs.length := by
  by_cases hne : rs = []
  · subst hne
    rw [scale_empty sc (Raw.records []) rfl] at h
    cases h
  · by_cases hmiss : schemaMissing rs = []
    · rw [scale_records_shape sc rs hne hmiss] at h
      cases hsel : selectAstype (recFrame rs) with
      | error e => rw [hsel] at h; simp [Except.map] at h
      | ok numeric =>
          rw [hsel] at h
          simp only [Except.map, Except.ok.injEq] at h
          subst h
          have hn := exceptMapList_ok_length _ _ _ hsel
          simp only [recFrame, List.length_map] at hn
          simp [Scaler.transform, hn]
    · rw [scale_records_missing sc rs hne hmiss] at h
      cases h

theorem cellFloat_err_unique (row : List (Col × Value)) :
    ∀ (c : String) (e' : String), cellFloat row c = .error e' → e' = numErr := by
  intro c e' h
  unfold cellFloat at h
  split at h
  · cases h
  · split at h
    · cases h
    · cases h
      rfl

theorem predictWithDetails_shape (m : Model) (sc : Scaler) (raw : Raw)
    (X : List (List PyFloat)) (hX : scale sc raw = .ok X) :
    m.predictWithDetailsOp sc raw =
      .ok ((m.clf.predict X).enum.map
        (detailRow (m.clf.predictProba.map (fun g => g X))
          (if (m.clf.predictProba).isSome then m.clf.classes else []))) := by
  cases hcap : m.clf.predictProba with
  | none =>
      simp [Model.predictWithDetailsOp, hX, hcap, Bind.bind, Except.bind, pure, Except.pure]
  | some g =>
      simp [Model.predictWithDetailsOp, hX, hcap, Bind.bind, Except.bind, pure, Except.pure]

/-! ### Claims -/

/-- Claim C1, counterexample.  The claim says that a sequence of mappings
in which any single mapping lacks schema names must fail with
`MissingFeatures`, and that no normalized matrix containing missing
values is ever produced.  The code checks missing names against the
union of the keys of all mappings (`pd.DataFrame(records).columns`), so
the input `[fullRec, sparseRec]` — whose second mapping supplies only
`age` and `sex` — does not fail: it produces a matrix whose second row
holds `NaN` in the seven absent columns. -/
theorem c1_union_missing_cex :
    scale idScaler (Raw.records [fullRec, sparseRec]) =
      Except.ok [[.val 63, .val 1, .val 3, .val 150, .val 0, .val 2, .val 0, .val 0, .val 1],
                 [.val 50, .val 1, .nan, .nan, .nan, .nan, .nan, .nan, .nan]] := by
  simp +decide [scale, dataFrame, recFrame, selectAstype, exceptMapList, cellFloat, lookupCol,
    unionKeys, FEATURE_COLUMNS, missingErr, Raw.isEmptyInput, sparseRec, fullRec, Value.toFloat,
    Scaler.transform, idScaler, PyFloat.subq, PyFloat.divq, Bind.bind, Except.bind, pure,
    Except.pure, Functor.map, Except.map, sub_zero, div_one]

/-- Claim C1, amended: normalization of a sequence of mappings fails with
`MissingFeatures` exactly when some Feature-Schema name is absent from
the union of the keys of all mappings; the error then names exactly the
union-absent schema names, in Feature-Schema order (`schemaMissing` is
by construction the sublist of `FEATURE_COLUMNS` of names outside the
key union).  A name missing from one mapping but present in another does
not fail; its cells become `NaN` (see the counterexample).  For a
one-mapping input the per-mapping and union readings coincide, so the
spec's single-record example behaves as claimed. -/
theorem c1_missing_features_union (sc : Scaler) (rs : List Rec) (hne : rs ≠ [])
    (hmiss : schemaMissing rs ≠ []) :
    scale sc (Raw.records rs) = .error (missingErr (schemaMissing rs)) ∧
    (schemaMissing rs).Sublist FEATURE_COLUMNS ∧
    (∀ c, c ∈ schemaMissing rs ↔ c ∈ FEATURE_COLUMNS ∧ ¬ c ∈ unionKeys rs) := by
  refine ⟨scale_records_missing sc rs hne hmiss, ?_, ?_⟩
  · exact List.filter_sublist _
  · intro c
    simp [schemaMissing, List.mem_filter]

/-- Claim C1 witness: the spec's own example, a single record carrying
only `age` and `sex`, reports the other seven schema names in schema
order. -/
theorem c1_missing_features_union_witness :
    (scale idScaler (Raw.records [sparseRec]) = .error (missingErr (schemaMissing [sparseRec])) ∧
      (schemaMissing [sparseRec]).Sublist FEATURE_COLUMNS ∧
      (∀ c, c ∈ schemaMissing [sparseRec] ↔ c ∈ FEATURE_COLUMNS ∧ ¬ c ∈ unionKeys [sparseRec])) ∧
    missingErr (schemaMissing [sparseRec]) =
      "Missing features: cp, thalach, exang, oldpeak, slope, ca, thal" :=
  ⟨c1_missing_features_union idScaler [sparseRec] (by simp) (by decide), by decide⟩

/-- Claim C5, counterexample.  The claim says a single mapping is
accepted and wrapped as a one-row sequence, normalizing to the same
matrix as the one-element list.  The source has no such branch:
`pd.DataFrame` on a nonempty mapping of scalar values raises
`ValueError: If using all scalar values, you must pass an index`,
while the one-element list normalizes fine. -/
theorem c5_single_not_wrapped_cex :
    scale idScaler (Raw.single fullRec) = .error scalarIndexErr ∧
    scale idScaler (Raw.records [fullRec]) =
      Except.ok [[.val 63, .val 1, .val 3, .val 150, .val 0, .val 2, .val 0, .val 0, .val 1]] := by
  constructor
  · exact scale_single_scalar idScaler fullRec (by simp [fullRec])
  · simp +decide [scale, dataFrame, recFrame, selectAstype, exceptMapList, cellFloat, lookupCol,
      unionKeys, FEATURE_COLUMNS, missingErr, Raw.isEmptyInput, fullRec, Value.toFloat,
      Scaler.transform, idScaler, PyFloat.subq, PyFloat.divq, Bind.bind, Except.bind, pure,
      Except.pure, Functor.map, Except.map, sub_zero, div_one]

/-- Claim C5, amended: a single mapping supplied as raw input is never
wrapped into a one-row sequence; every nonempty single mapping fails with
the pandas scalar-values `ValueError` (and an empty one with
`EmptyInput`), so only sequences of mappings normalize. -/
theorem c5_single_not_wrapped (sc : Scaler) (m : Rec) (hne : m ≠ []) :
    scale sc (Raw.single m) = .error scalarIndexErr :=
  scale_single_scalar sc m hne

/-- Claim C5 witness: the full nine-feature record, passed as a bare
mapping, is rejected with the pandas scalar-values error. -/
theorem c5_single_not_wrapped_witness :
    scale idScaler (Raw.single fullRec) = .error scalarIndexErr :=
  c5_single_not_wrapped idScaler fullRec (by simp [fullRec])

/-- Claim C6, counterexample.  The claim says a raw numeric matrix is
bound to the schema by position, and that an 8-column row against the
9-feature schema raises `ShapeMismatch` reporting expected=9,
received=8.  The code passes the list of lists to `pd.DataFrame`, whose
columns become the integers 0..7, so the missing-features check fails
for all nine schema names and the call raises `MissingFeatures` naming
all of them — there is no positional binding and no shape check. -/
theorem c6_matrix_shape_cex :
    scale idScaler
      (Raw.matrix [[.num 63, .num 1, .num 3, .num 150, .num 0, .num 2, .num 0, .num 0]]) =
      .error "Missing features: age, sex, cp, thalach, exang, oldpeak, slope, ca, thal" := by
  simp +decide [scale, dataFrame, matFrame, maxRowLen, Raw.isEmptyInput, FEATURE_COLUMNS,
    missingErr, Bind.bind, Except.bind, pure, Except.pure, throw, throwThe, MonadExceptOf.throw,
    String.intercalate]

/-- Claim C6, amended: a raw numeric matrix is never accepted, whatever
its column count: every nonempty list-of-lists input fails with
`MissingFeatures` naming all nine schema names (its DataFrame has
integer columns, so every schema name is reported missing).  No
`ShapeMismatch` error exists in the code. -/
theorem c6_matrix_rejected (sc : Scaler) (rows : List (List Value)) (hne : rows ≠ []) :
    scale sc (Raw.matrix rows) = .error (missingErr FEATURE_COLUMNS) :=
  scale_matrix_missing sc rows hne

/-- Claim C6 witness: the 8-column row of the counterexample, through
the amended theorem. -/
theorem c6_matrix_rejected_witness :
    scale idScaler
      (Raw.matrix [[.num 63, .num 1, .num 3, .num 150, .num 0, .num 2, .num 0, .num 0]]) =
      .error (missingErr FEATURE_COLUMNS) :=
  c6_matrix_rejected idScaler [[.num 63, .num 1, .num 3, .num 150, .num 0, .num 2, .num 0, .num 0]]
    (by simp)

/-- Claim C8: an empty input — a zero-row list or an empty single
mapping — fails with the `EmptyInput` error (`No input records
provided.`) for `predict`, for `predict_proba` of a probability-capable
adapter, and for `predict_with_details`. -/
theorem c8_empty_input (m : Model) (sc : Scaler)
    (f : List (List PyFloat) → List (List ℚ)) (hcap : m.clf.predictProba = some f) :
    m.predictOp sc (Raw.records []) = .error emptyErr ∧
    m.predictProbaOp sc (Raw.records []) = .error emptyErr ∧
    m.predictWithDetailsOp sc (Raw.records []) = .error emptyErr ∧
    m.predictOp sc (Raw.single []) = .error emptyErr ∧
    m.predictProbaOp sc (Raw.single []) = .error emptyErr ∧
    m.predictWithDetailsOp sc (Raw.single []) = .error emptyErr := by
  have h1 := scale_empty sc (Raw.records []) rfl
  have h2 := scale_empty sc (Raw.single []) rfl
  refine ⟨?_, ?_, ?_, ?_, ?_, ?_⟩ <;>
    simp [Model.predictOp, Model.predictProbaOp, Model.predictWithDetailsOp, hcap, h1, h2,
      Bind.bind, Except.bind]

/-- Claim C8 witness: the probability-capable test adapter on both empty
shapes. -/
theorem c8_empty_input_witness :
    probaModel.predictOp idScaler (Raw.records []) = .error emptyErr ∧
    probaModel.predictProbaOp idScaler (Raw.records []) = .error emptyErr ∧
    probaModel.predictWithDetailsOp idScaler (Raw.records []) = .error emptyErr ∧
    probaModel.predictOp idScaler (Raw.single []) = .error emptyErr ∧
    probaModel.predictProbaOp idScaler (Raw.single []) = .error emptyErr ∧
    probaModel.predictWithDetailsOp idScaler (Raw.single []) = .error emptyErr :=
  c8_empty_input probaModel idScaler _ rfl

/-- Claim C9: the three operations are deterministic and mutate no
state.  The embedding threads the process state (the adapter with its
bound classifier, and the shared fitted scaler) through every operation;
each call returns the state unchanged, and a second call on the returned
state yields the identical output. -/
theorem c9_deterministic_stateless (st : AppState) (raw : Raw) :
    (predictS st raw).2 = st ∧
    (predictProbaS st raw).2 = st ∧
    (predictWithDetailsS st raw).2 = st ∧
    (predictS ((predictS st raw).2) raw).1 = (predictS st raw).1 ∧
    (predictProbaS ((predictProbaS st raw).2) raw).1 = (predictProbaS st raw).1 ∧
    (predictWithDetailsS ((predictWithDetailsS st raw).2) raw).1 =
      (predictWithDetailsS st raw).1 :=
  ⟨rfl, rfl, rfl, rfl, rfl, rfl⟩

/-- Claim C10: for a label-only adapter the capability check in
`predict_proba` precedes input validation, so `predict_proba` returns
`None` even on inputs `_scale` rejects — while `predict` on the same
input raises that validation error. -/
theorem c10_capability_before_validation (m : Model) (sc : Scaler) (raw : Raw) (e : String)
    (hcap : m.clf.predictProba = none) (herr : scale sc raw = .error e) :
    m.predictProbaOp sc raw = .ok none ∧ m.predictOp sc raw = .error e := by
  constructor
  · simp [Model.predictProbaOp, hcap, pure, Except.pure]
  · simp [Model.predictOp, herr, Bind.bind, Except.bind]

/-- Claim C10 witness: the label-only test adapter on the empty list,
which `_scale` rejects with `EmptyInput`; `predict_proba` still returns
`None`. -/
theorem c10_capability_before_validation_witness :
    labelModel.predictProbaOp idScaler (Raw.records []) = .ok none ∧
    labelModel.predictOp idScaler (Raw.records []) = .error emptyErr :=
  c10_capability_before_validation labelModel idScaler (Raw.records []) emptyErr rfl
    (scale_empty idScaler (Raw.records []) rfl)

/-- Claim C4: for a label-only adapter (`hasattr(model, 'predict_proba')`
false), `predict_proba` returns `None` rather than raising, and no record
`predict_with_details` produces contains a `confidence` or
`probabilities` field. -/
theorem c4_label_only_no_proba_fields (m : Model) (sc : Scaler) (raw : Raw)
    (hcap : m.clf.predictProba = none) :
    m.predictProbaOp sc raw = .ok none ∧
    ∀ ds, m.predictWithDetailsOp sc raw = .ok ds →
      ∀ d ∈ ds, d.confidence = none ∧ d.probabilities = none := by
  constructor
  · simp [Model.predictProbaOp, hcap, pure, Except.pure]
  · intro ds hds d hd
    cases hscale : scale sc raw with
    | error e =>
        simp [Model.predictWithDetailsOp, hscale, Bind.bind, Except.bind] at hds
    | ok X =>
        simp only [Model.predictWithDetailsOp, hscale, hcap, Option.map_none', Bind.bind,
          Except.bind, pure, Except.pure, Except.ok.injEq] at hds
        subst hds
        rcases List.mem_map.mp hd with ⟨ip, _, rfl⟩
        exact ⟨rfl, rfl⟩

/-- Claim C4 witness: the label-only test adapter on a valid one-record
input returns `None` from `predict_proba` and a detail record with
neither optional field. -/
theorem c4_label_only_no_proba_fields_witness :
    labelModel.predictProbaOp idScaler (Raw.records [fullRec]) = .ok none ∧
    ∀ ds, labelModel.predictWithDetailsOp idScaler (Raw.records [fullRec]) = .ok ds →
      ∀ d ∈ ds, d.confidence = none ∧ d.probabilities = none :=
  c4_label_only_no_proba_fields labelModel idScaler (Raw.records [fullRec]) rfl

/-- Claim C7: if, after the missing-features check passes, any schema
feature of any record holds a value `float()` cannot coerce, `_scale`
fails with the `NonNumericFeature` error (`All feature values must be
numeric.`) and the whole call returns no matrix at all. -/
theorem c7_nonnumeric_fails_whole_call (sc : Scaler) (rs : List Rec) (hne : rs ≠ [])
    (hmiss : schemaMissing rs = [])
    (hbad : ∃ r ∈ rs, ∃ c ∈ FEATURE_COLUMNS, ∃ v, lookupRec c r = some v ∧ v.toFloat = none) :
    scale sc (Raw.records rs) = .error numErr := by
  rw [scale_records_shape sc rs hne hmiss]
  have hrow_u : ∀ (row : List (Col × Value)) (e' : String),
      exceptMapList (cellFloat row) FEATURE_COLUMNS = .error e' → e' = numErr :=
    fun row e' h =>
      exceptMapList_err_unique (cellFloat row) numErr (cellFloat_err_unique row)
        FEATURE_COLUMNS e' h
  have hsel : selectAstype (recFrame rs) = .error numErr := by
    rcases hbad with ⟨r, hr, c, hc, v, hv, hvf⟩
    apply exceptMapList_err _ numErr hrow_u
    refine ⟨r.map (fun kv => (Col.name kv.1, kv.2)), ?_, ?_⟩
    · exact List.mem_map_of_mem _ hr
    · apply exceptMapList_err _ numErr (cellFloat_err_unique _)
      refine ⟨c, hc, ?_⟩
      simp [cellFloat, lookupCol_wrap, hv, hvf]
  rw [hsel]
  rfl

/-- Claim C7 witness: a record whose `age` is the string `"abc"` makes
the whole call fail with the non-numeric error. -/
theorem c7_nonnumeric_fails_whole_call_witness :
    scale idScaler (Raw.records [badRec]) = .error numErr :=
  c7_nonnumeric_fails_whole_call idScaler [badRec] (by simp) (by decide)
    ⟨badRec, by simp, "age", by decide, .nonNumeric "abc", by decide, rfl⟩

/-- Claim C2: for a probability-capable adapter, every Prediction Detail
of `predict_with_details` carries a probability map whose keys are the
stringified class labels of the bound classifier (in `classes_` order),
whose values are the classifier's probability row (each in [0,1], summing
to 1 within 1e-6), and whose `confidence` equals the maximum of those
values.  The hypotheses record sklearn's `predict_proba` contract: one
probability row per predicted row, one entry per class, a probability
distribution; and that the stringified class labels are distinct (true
of the binary classes 0 and 1). -/
theorem c2_probability_invariants (m : Model) (sc : Scaler) (raw : Raw)
    (g : List (List PyFloat) → List (List ℚ)) (X : List (List PyFloat))
    (hcap : m.clf.predictProba = some g)
    (hX : scale sc raw = .ok X)
    (hlen : (g X).length = (m.clf.predict X).length)
    (hrows : ∀ p ∈ g X, p.length = m.clf.classes.length ∧
      (∀ v ∈ p, 0 ≤ v ∧ v ≤ 1) ∧ p.sum = 1)
    (hnd : (m.clf.classes.map intStr).Nodup)
    (hcls : m.clf.classes ≠ []) :
    ∃ ds, m.predictWithDetailsOp sc raw = .ok ds ∧ ∀ d ∈ ds,
      ∃ pm, d.probabilities = some pm ∧
        pm.map Prod.fst = m.clf.classes.map intStr ∧
        (∀ v ∈ pm.map Prod.snd, 0 ≤ v ∧ v ≤ 1) ∧
        |(pm.map Prod.snd).sum - 1| ≤ 1/1000000 ∧
        ∃ conf, d.confidence = some conf ∧ conf ∈ pm.map Prod.snd ∧
          ∀ v ∈ pm.map Prod.snd, v ≤ conf := by
  have hshape := predictWithDetails_shape m sc raw X hX
  rw [hcap] at hshape
  simp only [Option.map_some', Option.isSome_some, if_true] at hshape
  refine ⟨_, hshape, ?_⟩
  intro d hd
  rcases List.mem_map.mp hd with ⟨ip, hip, rfl⟩
  obtain ⟨i, lbl⟩ := ip
  have hi2 : (m.clf.predict X)[i]? = some lbl := List.mk_mem_enum_iff_getElem?.mp hip
  have hilt : i < (m.clf.predict X).length := (List.getElem?_eq_some.mp hi2).1
  have hiltp : i < (g X).length := by rw [hlen]; exact hilt
  set p := (g X).getD i [] with hpdef
  have hpmem : p ∈ g X := by
    rw [hpdef, List.getD_eq_getElem _ _ hiltp]
    exact List.getElem_mem hiltp
  obtain ⟨hplen, hpbound, hpsum⟩ := hrows p hpmem
  have hzip := probMapOf_eq_zip m.clf.classes p (by rw [hplen]) hnd
  have hkeys : (probMapOf m.clf.classes p).map Prod.fst = m.clf.classes.map intStr := by
    rw [hzip]
    exact zipWith_pair_fst intStr _ _ (by rw [hplen])
  have hvals : (probMapOf m.clf.classes p).map Prod.snd = p := by
    rw [hzip]
    exact zipWith_pair_snd intStr _ _ (by rw [hplen])
  have hpne : p ≠ [] := by
    intro h0
    apply hcls
    apply List.length_eq_zero.mp
    rw [← hplen, h0]
    rfl
  refine ⟨probMapOf m.clf.classes p, rfl, hkeys, ?_, ?_, ?_⟩
  · rw [hvals]
    exact hpbound
  · rw [hvals, hpsum]
    norm_num
  · refine ⟨pyMax ((probMapOf m.clf.classes p).map Prod.snd), rfl, ?_, ?_⟩
    · rw [hvals]
      exact pyMax_mem p hpne
    · intro v hv
      exact pyMax_ub _ v hv

/-- Claim C3: `predict_with_details` returns exactly one Prediction
Detail per input row, in input order: the output length equals the
number of input records, and the label of output row `i` is
`predictions[i]` for the scaled matrix of the input (the classifier
contract `len(predict(X)) == len(X)` is a hypothesis, since the
classifier is an opaque collaborator). -/
theorem c3_row_alignment (m : Model) (sc : Scaler) (rs : List Rec) (X : List (List PyFloat))
    (hX : scale sc (Raw.records rs) = .ok X)
    (hplen : (m.clf.predict X).length = X.length) :
    ∃ ds, m.predictWithDetailsOp sc (Raw.records rs) = .ok ds ∧
      ds.length = rs.length ∧
      ∀ i, i < ds.length → (ds.getD i dfltDetail).label = (m.clf.predict X).getD i 0 := by
  refine ⟨_, predictWithDetails_shape m sc (Raw.records rs) X hX, ?_, ?_⟩
  · simp [List.enum_length, hplen, scale_ok_length sc rs X hX]
  · intro i hi
    have hip : i < (m.clf.predict X).length := by
      simpa [List.enum_length] using hi
    rw [List.getD_eq_getElem _ _ hi, List.getD_eq_getElem _ _ hip]
    rw [List.getElem_map, List.getElem_enum]
    exact detailRow_label _ _ _

/-- Claim C2 witness: the probability-capable test adapter on one valid
record; its probability row is `[1/4, 3/4]` over classes `0` and `1`. -/
theorem c2_probability_invariants_witness :
    ∃ ds, probaModel.predictWithDetailsOp idScaler (Raw.records [fullRec]) = .ok ds ∧
      ∀ d ∈ ds, ∃ pm, d.probabilities = some pm ∧
        pm.map Prod.fst = probaModel.clf.classes.map intStr ∧
        (∀ v ∈ pm.map Prod.snd, 0 ≤ v ∧ v ≤ 1) ∧
        |(pm.map Prod.snd).sum - 1| ≤ 1/1000000 ∧
        ∃ conf, d.confidence = some conf ∧ conf ∈ pm.map Prod.snd ∧
          ∀ v ∈ pm.map Prod.snd, v ≤ conf :=
  c2_probability_invariants probaModel idScaler (Raw.records [fullRec])
    (fun X => X.map (fun _ => [1/4, 3/4]))
    [[.val 63, .val 1, .val 3, .val 150, .val 0, .val 2, .val 0, .val 0, .val 1]]
    rfl
    (by simp +decide [scale, dataFrame, recFrame, selectAstype, exceptMapList, cellFloat,
      lookupCol, unionKeys, FEATURE_COLUMNS, missingErr, Raw.isEmptyInput, fullRec,
      Value.toFloat, Scaler.transform, idScaler, PyFloat.subq, PyFloat.divq, Bind.bind,
      Except.bind, pure, Except.pure, Functor.map, Except.map, sub_zero, div_one])
    (by simp [probaModel, probaClf])
    (by
      intro p hp
      simp only [probaModel, probaClf, List.map_cons, List.map_nil, List.mem_singleton] at hp
      subst hp
      refine ⟨by simp [probaModel, probaClf], ?_, by norm_num⟩
      intro v hv
      simp only [List.mem_cons, List.mem_singleton, List.not_mem_nil, or_false] at hv
      rcases hv with h | h <;> subst h <;> norm_num)
    (by decide)
    (by simp [probaModel, probaClf])

/-- Claim C3 witness: one record in, one detail out, labelled by
`predictions[0]`. -/
theorem c3_row_alignment_witness :
    ∃ ds, probaModel.predictWithDetailsOp idScaler (Raw.records [fullRec]) = .ok ds ∧
      ds.length = [fullRec].length ∧
      ∀ i, i < ds.length → (ds.getD i dfltDetail).label =
        (probaModel.clf.predict
          [[.val 63, .val 1, .val 3, .val 150, .val 0, .val 2, .val 0, .val 0, .val 1]]).getD i 0 :=
  c3_row_alignment probaModel idScaler [fullRec]
    [[.val 63, .val 1, .val 3, .val 150, .val 0, .val 2, .val 0, .val 0, .val 1]]
    (by simp +decide [scale, dataFrame, recFrame, selectAstype, exceptMapList, cellFloat,
      lookupCol, unionKeys, FEATURE_COLUMNS, missingErr, Raw.isEmptyInput, fullRec,
      Value.toFloat, Scaler.transform, idScaler, PyFloat.subq, PyFloat.divq, Bind.bind,
      Except.bind, pure, Except.pure, Functor.map, Except.map, sub_zero, div_one])
    (by simp [probaModel, probaClf])

end Heart
